import Mathlib

/-!
Verification of the retrieval subsystem of a document question-answering
assistant: vector store, similarity search, text chunking and context
assembly, embedded from the Python sources (utils/vector_store.py,
utils/document_processor.py, utils/rag_pipeline.py, config/config.py).
Floating-point similarity scores are modelled as exact rationals, and the
cosine kernel itself is a parameter of the model: every ranking and
threshold property below holds for an arbitrary kernel. Text is modelled
as its character sequence, so that every string operation of the embedding
is structurally recursive and evaluates inside the kernel.
-/

/-- Text as a character sequence. -/
abbrev Str : Type := List Char

/-- Character sequence of a string literal. -/
def str (s : String) : Str := s.data

/-- Config.CHUNK_SIZE from config/config.py. -/
def CHUNK_SIZE : Nat := 1000

/-- Config.CHUNK_OVERLAP from config/config.py. -/
def CHUNK_OVERLAP : Nat := 200

/-- Config.MAX_CHUNKS from config/config.py. -/
def MAX_CHUNKS : Nat := 5

/-- Config.SIMILARITY_THRESHOLD from config/config.py, the rational 0.7. -/
def SIMILARITY_THRESHOLD : ℚ := mkRat 7 10

/-- Python str.strip character class. -/
def pyIsSpace (c : Char) : Bool :=
  c = ' ' || c = '\t' || c = '\n' || c = '\r' || c = '\x0b' || c = '\x0c'

/-- Python str.strip(): whitespace removed from both ends. -/
def pyStrip (l : Str) : Str :=
  ((l.dropWhile pyIsSpace).reverse.dropWhile pyIsSpace).reverse

/-- Python str.replace for a single-character pattern, used for the newline
normalization text.replace of chunk_text. -/
def replaceChar (a b : Char) (l : Str) : Str :=
  l.map (fun c => if c = a then b else c)

/-- Python split on the sentence delimiter: the text is cut at the leftmost
non-overlapping occurrences of the two characters period blank. -/
def splitDotSpace : Str → List Str
  | [] => [[]]
  | '.' :: ' ' :: rest => [] :: splitDotSpace rest
  | c :: rest =>
      match splitDotSpace rest with
      | [] => [[c]]
      | s :: ss => (c :: s) :: ss

/-- Join with the sentence delimiter, used to model taking the suffix after
the first delimiter occurrence. -/
def joinDS : List Str → Str
  | [] => []
  | [s] => s
  | s :: rest => s ++ '.' :: ' ' :: joinDS rest

/-- Join with a newline, Python str.join of the context and source lists. -/
def joinNl : List Str → Str
  | [] => []
  | [s] => s
  | s :: rest => s ++ '\n' :: joinNl rest

/-- Per-passage metadata dictionary; only the keys the retrieval code reads
or writes are modelled. -/
structure Metadata where
  file_name : Option Str := none
  source : Option Str := none
  id : Option Nat := none
deriving DecidableEq, Repr, Inhabited

/-- In-memory state of VectorStore (utils/vector_store.py): documents, the
embedding row matrix (None before the first add) and per-document
metadata. -/
structure VectorStore where
  documents : List Str := []
  embeddings : Option (List (List ℚ)) := none
  metadata : List Metadata := []
deriving DecidableEq, Repr, Inhabited

/-- A vector store together with the durable artifact vector_store.pkl
written by _save_store; disk is none when no file exists. -/
structure SysState where
  store : VectorStore := {}
  disk : Option VectorStore := none
deriving DecidableEq, Repr, Inhabited

/-- All rows of a matrix have the same length; np.vstack succeeds exactly
when the concatenation of its inputs is rectangular. -/
def allSameWidth : List (List ℚ) → Bool
  | [] => true
  | r :: rest => rest.all (fun s => s.length = r.length)

/-- Default metadata built by add_documents when the metadata argument is
None: one entry per document with its index and source unknown. -/
def defaultMetadata (n : Nat) : List Metadata :=
  (List.range n).map (fun i => { id := some i, source := some (str "unknown") })

/-- VectorStore.add_documents. Returns the system state after the call and
the error message when the call raises. The length check happens before
any mutation; documents and metadata are extended before the embedding
concatenation, so a vstack failure leaves them extended while the matrix
keeps its old rows; the store is written to disk only on the success
path. -/
def add_documents (s : SysState) (documents : List Str)
    (embeddings : List (List ℚ)) (metadata : Option (List Metadata)) :
    SysState × Option Str :=
  if documents.length ≠ embeddings.length then
    (s, some (str "Number of documents must match number of embeddings"))
  else
    let md := metadata.getD (defaultMetadata documents.length)
    let docs2 := s.store.documents ++ documents
    let md2 := s.store.metadata ++ md
    match s.store.embeddings with
    | none =>
        let store2 : VectorStore :=
          { documents := docs2, embeddings := some embeddings, metadata := md2 }
        ({ store := store2, disk := some store2 }, none)
    | some old =>
        if allSameWidth (old ++ embeddings) then
          let store2 : VectorStore :=
            { documents := docs2, embeddings := some (old ++ embeddings),
              metadata := md2 }
          ({ store := store2, disk := some store2 }, none)
        else
          ({ store := { documents := docs2, embeddings := some old,
                        metadata := md2 }, disk := s.disk },
           some (str "vstack: all the input array dimensions must match"))

/-- Number of embedding rows, store.embeddings.shape[0]; 0 for an absent
matrix. -/
def VectorStore.rows (st : VectorStore) : Nat := (st.embeddings.getD []).length

/-- The lockstep invariant: as many documents as embedding rows as metadata
entries. -/
def VectorStore.wf (st : VectorStore) : Prop :=
  st.documents.length = st.rows ∧ st.metadata.length = st.rows

instance (st : VectorStore) : Decidable st.wf := by
  unfold VectorStore.wf; infer_instance

/-- Arguments of one add_documents call. -/
structure AddCall where
  documents : List Str
  embeddings : List (List ℚ)
  metadata : Option (List Metadata)
deriving DecidableEq, Repr

/-- Run a sequence of add_documents calls, keeping the state each call
leaves behind whether or not it raises. -/
def runCalls (s : SysState) : List AddCall → SysState
  | [] => s
  | c :: rest => runCalls (add_documents s c.documents c.embeddings c.metadata).1 rest

/-- Stable insertion by key, ascending: an index inserted later goes after
earlier indices with an equal key. -/
def insertAsc (key : Nat → ℚ) (i : Nat) : List Nat → List Nat
  | [] => [i]
  | j :: rest => if key j ≤ key i then j :: insertAsc key i rest else i :: j :: rest

/-- np.argsort(similarities) of VectorStore.search, modelled as a stable
ascending sort of the indices 0..n-1 by similarity (numpy's tie order on
the small arrays exercised here coincides with the stable one). -/
def argsortAsc (sims : List ℚ) : List Nat :=
  (List.range sims.length).foldl (fun acc i => insertAsc (fun j => sims.getD j 0) i acc) []

/-- Python falsy coalescing `threshold or Config.SIMILARITY_THRESHOLD`
inside search: both None and 0.0 are replaced by the configured default. -/
def effThreshold (cfg : ℚ) : Option ℚ → ℚ
  | none => cfg
  | some t => if t = 0 then cfg else t

/-- VectorStore.search. The floating-point cosine kernel
_compute_similarities is modelled by the parameter sim, applied to the
query and each stored row. Results walk the reversed argsort truncated to
top_k and keep the scores at or above the effective threshold; the
try/except that turns an out-of-range document or metadata access during
the result loop into an overall empty result is the final bounds guard. -/
def search (cfg : ℚ) (sim : List ℚ → List ℚ → ℚ) (st : VectorStore)
    (query : List ℚ) (top_k : Nat) (threshold : Option ℚ) :
    List (Str × ℚ × Metadata) :=
  match st.embeddings with
  | none => []
  | some emb =>
    if st.documents.length = 0 then []
    else
      let sims := emb.map (sim query)
      let top_indices := (argsortAsc sims).reverse.take top_k
      let th := effThreshold cfg threshold
      let kept := top_indices.filter (fun i => th ≤ sims.getD i 0)
      if kept.all (fun i => i < st.documents.length && i < st.metadata.length) then
        kept.map (fun i => (st.documents.getD i [], sims.getD i 0, st.metadata.getD i default))
      else []

/-- Concrete similarity kernel used to instantiate the model on concrete
inputs: the similarity of a document row is its first coordinate. -/
def headSim (_q v : List ℚ) : ℚ := v.headD 0

/-- One chunk produced by DocumentProcessor.chunk_text. -/
structure Chunk where
  id : Nat
  text : Str
  length : Nat
deriving DecidableEq, Repr

/-- DocumentProcessor._get_overlap_text: the trailing chunk_overlap
characters of the chunk, advanced past the first sentence boundary inside
that window when one exists, then stripped. -/
def get_overlap_text (chunk_overlap : Nat) (text : Str) : Str :=
  if text.length ≤ chunk_overlap then text
  else
    let overlap_text := text.drop (text.length - chunk_overlap)
    match splitDotSpace overlap_text with
    | [] => pyStrip overlap_text
    | [_] => pyStrip overlap_text
    | _ :: rest => pyStrip (joinDS rest)

/-- Loop state of DocumentProcessor.chunk_text. -/
structure ChunkState where
  chunks : List Chunk
  current_chunk : Str
  current_length : Nat
  chunk_id : Nat
deriving DecidableEq, Repr

/-- One iteration of the sentence loop in chunk_text: blank sentences are
skipped; an overflowing non-empty buffer is closed and reseeded with the
overlap text; otherwise the sentence is appended to the buffer. -/
def chunkStep (chunk_size chunk_overlap : Nat) (st : ChunkState) (sentence0 : Str) :
    ChunkState :=
  let sentence := pyStrip sentence0
  if sentence = [] then st
  else
    let sentence_length := sentence.length
    if chunk_size < st.current_length + sentence_length ∧ st.current_chunk ≠ [] then
      let closed : Chunk :=
        { id := st.chunk_id, text := pyStrip st.current_chunk, length := st.current_length }
      let overlap_text := get_overlap_text chunk_overlap st.current_chunk
      let new_chunk := overlap_text ++ ' ' :: sentence
      { chunks := st.chunks ++ [closed], current_chunk := new_chunk,
        current_length := new_chunk.length, chunk_id := st.chunk_id + 1 }
    else
      let new_chunk :=
        if st.current_chunk ≠ [] then st.current_chunk ++ '.' :: ' ' :: sentence
        else sentence
      { st with current_chunk := new_chunk, current_length := new_chunk.length }

/-- DocumentProcessor.chunk_text: newlines are replaced by spaces, the text
is split on the sentence delimiter, the loop accumulates sentences, and a
final non-blank buffer is flushed as the last chunk. -/
def chunk_text (chunk_size chunk_overlap : Nat) (text : Str) : List Chunk :=
  let sentences := splitDotSpace (replaceChar '\n' ' ' text)
  let st := sentences.foldl (chunkStep chunk_size chunk_overlap)
    { chunks := [], current_chunk := [], current_length := 0, chunk_id := 0 }
  if pyStrip st.current_chunk ≠ [] then
    st.chunks ++
      [{ id := st.chunk_id, text := pyStrip st.current_chunk,
         length := st.current_chunk.length }]
  else st.chunks

/-- RAGPipeline._retrieve_from_documents: empty stores short-circuit to no
results; otherwise the store is searched with top_k MAX_CHUNKS at the
configured threshold, and when that yields nothing and the configured
threshold exceeds 0.5 the search is retried once at the relaxed threshold
0.3. The query encoder encode_text is a parameter. -/
def retrieve_from_documents (cfg : ℚ) (sim : List ℚ → List ℚ → ℚ)
    (encode : Str → List ℚ) (st : VectorStore) (query : Str) :
    List (Str × ℚ × Metadata) :=
  if st.documents.length = 0 then []
  else
    let query_embedding := encode query
    let results := search cfg sim st query_embedding MAX_CHUNKS (some cfg)
    if results = [] ∧ mkRat 1 2 < cfg then
      search cfg sim st query_embedding MAX_CHUNKS (some (mkRat 3 10))
    else results

/-- One web search result as consumed by the pipeline. -/
structure WebResult where
  title : Str
  snippet : Str
  link : Str
deriving DecidableEq, Repr

/-- RAGPipeline._retrieve_from_web: skips silently when the adapter is not
configured, otherwise returns the adapter's results; the external adapter
is the parameter web_search. -/
def retrieve_from_web (configured : Bool) (web_search : Str → List WebResult)
    (query : Str) : List WebResult :=
  if configured then web_search query else []

/-- The value of a similarity rounded to a whole number of thousandths,
ties to even as in Python float formatting, on exact rationals. -/
def roundMilli (x : ℚ) : Int :=
  let n : Int := x.num * 1000
  let d : Int := (x.den : Int)
  let f : Int := n.fdiv d
  let r : Int := n - f * d
  if 2 * r < d then f
  else if d < 2 * r then f + 1
  else if f % 2 = 0 then f else f + 1

/-- Python format specifier .3f applied to a similarity score. -/
def formatSim3 (x : ℚ) : Str :=
  let m := roundMilli x
  let sign : Str := if m < 0 then ['-'] else []
  let n := m.natAbs
  let frac := Nat.toDigits 10 (n % 1000)
  let fracPadded : Str :=
    if n % 1000 < 10 then '0' :: '0' :: frac
    else if n % 1000 < 100 then '0' :: frac
    else frac
  sign ++ Nat.toDigits 10 (n / 1000) ++ '.' :: fracPadded

/-- Context line appended per document result in retrieve_context: the text
is truncated to 500 characters and an ellipsis is appended
unconditionally. -/
def docContextLine (doc : Str) : Str := str "- " ++ doc.take 500 ++ str "..."

/-- Source line appended per document result in retrieve_context. -/
def docSourceLine (similarity : ℚ) (md : Metadata) : Str :=
  str "Document: " ++ md.file_name.getD (str "Unknown") ++
    str " (similarity: " ++ formatSim3 similarity ++ str ")"

/-- Context line appended per web result in retrieve_context. -/
def webContextLine (w : WebResult) : Str := str "- " ++ w.title ++ str ": " ++ w.snippet

/-- Source line appended per web result in retrieve_context. -/
def webSourceLine (w : WebResult) : Str := str "Web: " ++ w.title ++ str " (" ++ w.link ++ str ")"

/-- Condition under which retrieve_context enters the web-search branch:
web search enabled and no or thin document results. -/
def webTriggered (rag_results : List (Str × ℚ × Metadata)) (use_web_search : Bool) : Bool :=
  (rag_results.isEmpty || decide (rag_results.length < 2)) && use_web_search

/-- RAGPipeline.retrieve_context. Returns the context string, the source
string, and whether the web-search path (_retrieve_from_web) was invoked.
The per-result appends of the Python loops are written as maps, order
preserved; the joins and the empty fallbacks mirror the final two
assignments of the source. -/
def retrieve_context (cfg : ℚ) (sim : List ℚ → List ℚ → ℚ)
    (encode : Str → List ℚ) (st : VectorStore) (configured : Bool)
    (web_search : Str → List WebResult) (query : Str)
    (use_web_search : Bool) : Str × Str × Bool :=
  let rag_results := retrieve_from_documents cfg sim encode st query
  let context_parts :=
    if rag_results.isEmpty then []
    else str "Document Knowledge:" :: rag_results.map (fun r => docContextLine r.1)
  let source_info :=
    if rag_results.isEmpty then []
    else rag_results.map (fun r => docSourceLine r.2.1 r.2.2)
  let webCalled := webTriggered rag_results use_web_search
  let web_results := if webCalled then retrieve_from_web configured web_search query else []
  let context_parts2 :=
    if web_results.isEmpty then context_parts
    else context_parts ++
      [if context_parts.isEmpty then str "Web Search Results:"
       else str "\nWeb Search Results:"] ++
      web_results.map webContextLine
  let source_info2 :=
    if web_results.isEmpty then source_info
    else source_info ++ web_results.map webSourceLine
  let context_text := if context_parts2.isEmpty then [] else joinNl context_parts2
  let source_text :=
    if source_info2.isEmpty then str "No sources found" else joinNl source_info2
  (context_text, source_text, webCalled)

/-- Membership in a stable insertion is membership in the old list or being
the new element. -/
lemma mem_insertAsc (key : Nat → ℚ) (i a : Nat) :
    ∀ l : List Nat, a ∈ insertAsc key i l ↔ a = i ∨ a ∈ l := by
  intro l
  induction l with
  | nil => simp [insertAsc]
  | cons j rest ih =>
      by_cases h : key j ≤ key i
      · simp [insertAsc, h, ih]
        tauto
      · simp [insertAsc, h]

/-- Stable insertion preserves sortedness by the key. -/
lemma insertAsc_pairwise (key : Nat → ℚ) (i : Nat) :
    ∀ l : List Nat, l.Pairwise (fun a b => key a ≤ key b) →
      (insertAsc key i l).Pairwise (fun a b => key a ≤ key b) := by
  intro l
  induction l with
  | nil => intro _; simp [insertAsc]
  | cons j rest ih =>
      intro h
      rw [List.pairwise_cons] at h
      obtain ⟨hj, hrest⟩ := h
      by_cases hle : key j ≤ key i
      · simp only [insertAsc, if_pos hle]
        rw [List.pairwise_cons]
        refine ⟨?_, ih hrest⟩
        intro b hb
        rcases (mem_insertAsc key i b rest).mp hb with hbi | hbr
        · exact hbi ▸ hle
        · exact hj b hbr
      · simp only [insertAsc, if_neg hle]
        rw [List.pairwise_cons]
        refine ⟨?_, List.pairwise_cons.mpr ⟨hj, hrest⟩⟩
        intro b hb
        rcases List.mem_cons.mp hb with hbj | hbr
        · exact hbj ▸ le_of_lt (lt_of_not_le hle)
        · exact le_trans (le_of_lt (lt_of_not_le hle)) (hj b hbr)

/-- The insertion fold underlying argsortAsc preserves sortedness. -/
lemma foldl_insertAsc_pairwise (key : Nat → ℚ) :
    ∀ (l : List Nat) (acc : List Nat),
      acc.Pairwise (fun a b => key a ≤ key b) →
      (l.foldl (fun acc i => insertAsc key i acc) acc).Pairwise
        (fun a b => key a ≤ key b) := by
  intro l
  induction l with
  | nil => intro acc h; simpa using h
  | cons i rest ih =>
      intro acc h
      exact ih (insertAsc key i acc) (insertAsc_pairwise key i acc h)

/-- argsortAsc returns indices sorted ascending by similarity. -/
lemma argsortAsc_pairwise (sims : List ℚ) :
    (argsortAsc sims).Pairwise (fun a b => sims.getD a 0 ≤ sims.getD b 0) :=
  foldl_insertAsc_pairwise _ _ [] List.Pairwise.nil

/-- Search results are sorted non-increasing by score, for any configured
threshold, kernel, store, query, top_k and threshold argument. -/
lemma search_sorted (cfg : ℚ) (sim : List ℚ → List ℚ → ℚ) (st : VectorStore)
    (query : List ℚ) (top_k : Nat) (threshold : Option ℚ) :
    (search cfg sim st query top_k threshold).Pairwise
      (fun a b => b.2.1 ≤ a.2.1) := by
  obtain ⟨docs, emb, md⟩ := st
  cases emb with
  | none => simp [search]
  | some e =>
      simp only [search]
      split
      · exact List.Pairwise.nil
      · split
        · rw [List.pairwise_map]
          refine List.Pairwise.sublist (List.filter_sublist _) ?_
          refine List.Pairwise.sublist (List.take_sublist _ _) ?_
          exact List.pairwise_reverse.mpr (argsortAsc_pairwise _)
        · exact List.Pairwise.nil

/-- Every search result's score is at least the effective threshold. -/
lemma mem_search_eff (cfg : ℚ) (sim : List ℚ → List ℚ → ℚ) (st : VectorStore)
    (query : List ℚ) (top_k : Nat) (threshold : Option ℚ)
    (r : Str × ℚ × Metadata) (h : r ∈ search cfg sim st query top_k threshold) :
    effThreshold cfg threshold ≤ r.2.1 := by
  obtain ⟨docs, emb, md⟩ := st
  cases emb with
  | none => simp [search] at h
  | some e =>
      simp only [search] at h
      split at h
      · simp at h
      · split at h
        · obtain ⟨i, hi, rfl⟩ := List.mem_map.mp h
          have := List.of_mem_filter hi
          simpa using of_decide_eq_true this
        · simp at h

/-- Changing the threshold argument without changing the effective threshold
does not change the search result. -/
lemma search_eff_congr (cfg : ℚ) (sim : List ℚ → List ℚ → ℚ) (st : VectorStore)
    (query : List ℚ) (top_k : Nat) {t1 t2 : Option ℚ}
    (h : effThreshold cfg t1 = effThreshold cfg t2) :
    search cfg sim st query top_k t1 = search cfg sim st query top_k t2 := by
  obtain ⟨docs, emb, md⟩ := st
  cases emb with
  | none => simp [search]
  | some e => simp only [search, h]

/-- C2: search results are ordered non-increasing by similarity score, no
result scores below the threshold that was passed, and search on an empty
store returns the empty sequence without raising. Proved for every
similarity kernel, store, query vector, top_k and threshold. -/
theorem C2_search_ordering (sim : List ℚ → List ℚ → ℚ) (st : VectorStore)
    (query : List ℚ) (top_k : Nat) (threshold : Option ℚ) :
    (search SIMILARITY_THRESHOLD sim st query top_k threshold).Pairwise
      (fun a b => b.2.1 ≤ a.2.1) ∧
    (∀ (t : ℚ) (r : Str × ℚ × Metadata),
        r ∈ search SIMILARITY_THRESHOLD sim st query top_k (some t) → t ≤ r.2.1) ∧
    search SIMILARITY_THRESHOLD sim {} query top_k threshold = [] := by
  refine ⟨search_sorted _ _ _ _ _ _, ?_, rfl⟩
  intro t r hr
  have h := mem_search_eff _ _ _ _ _ _ _ hr
  by_cases ht : t = 0
  · subst ht
    refine le_trans ?_ h
    simp only [effThreshold, if_pos rfl]
    decide
  · simpa [effThreshold, ht] using h

/-- Witness for C2 at a concrete one-document store and threshold 0.8. -/
theorem C2_witness :
    ((str "w", (1:ℚ), ({} : Metadata)) ∈
        search SIMILARITY_THRESHOLD headSim ⟨[str "w"], some [[1]], [{}]⟩ [] 5
          (some (mkRat 4 5))) ∧
    mkRat 4 5 ≤ (1:ℚ) :=
  ⟨by decide,
   (C2_search_ordering headSim ⟨[str "w"], some [[1]], [{}]⟩ [] 5 (some (mkRat 4 5))).2.1
      (mkRat 4 5) (str "w", 1, {}) (by decide)⟩

/-- C9: passing an explicit threshold of 0.0 is replaced by the configured
default 0.7, so the result is exactly that of searching at the default
threshold, for every kernel, store, query and top_k. -/
theorem C9_zero_threshold (sim : List ℚ → List ℚ → ℚ) (st : VectorStore)
    (query : List ℚ) (top_k : Nat) :
    search SIMILARITY_THRESHOLD sim st query top_k (some 0) =
      search SIMILARITY_THRESHOLD sim st query top_k (some SIMILARITY_THRESHOLD) :=
  search_eff_congr _ _ _ _ _ (by decide)

/-- C10: a length mismatch between documents and embeddings makes
add_documents raise before any mutation, leaving the whole system state,
disk artifact included, exactly as before; no save occurs. -/
theorem C10_mismatch_atomic (s : SysState) (documents : List Str)
    (embeddings : List (List ℚ)) (metadata : Option (List Metadata))
    (h : documents.length ≠ embeddings.length) :
    add_documents s documents embeddings metadata =
      (s, some (str "Number of documents must match number of embeddings")) := by
  unfold add_documents
  rw [if_pos h]

/-- Witness for C10: one document against an empty embedding matrix. -/
theorem C10_witness :
    (([str "a"] : List Str).length ≠ ([] : List (List ℚ)).length) ∧
    add_documents {} [str "a"] [] none =
      ({}, some (str "Number of documents must match number of embeddings")) :=
  ⟨by decide, C10_mismatch_atomic {} [str "a"] [] none (by decide)⟩

/-- C5: the web-search path of retrieve_context runs exactly when
use_web_search is true and fewer than two document results were retrieved;
with two or more document results it is never invoked. -/
theorem C5_web_trigger (cfg : ℚ) (sim : List ℚ → List ℚ → ℚ) (encode : Str → List ℚ)
    (st : VectorStore) (configured : Bool) (web_search : Str → List WebResult)
    (query : Str) (use_web_search : Bool) :
    (retrieve_context cfg sim encode st configured web_search query use_web_search).2.2 =
      (use_web_search &&
        decide ((retrieve_from_documents cfg sim encode st query).length < 2)) := by
  simp only [retrieve_context, webTriggered]
  generalize retrieve_from_documents cfg sim encode st query = rs
  cases rs with
  | nil => simp
  | cons a l => simp [Bool.and_comm]

/-- C1 is refuted: a single add_documents call given two metadata entries
for one document succeeds and leaves documents and embeddings at length 1
but metadata at length 2, breaking the lockstep invariant. -/
theorem C1_counterexample :
    (runCalls {} [⟨[str "a"], [[1]], some [{}, {}]⟩]).store.documents.length = 1 ∧
    (runCalls {} [⟨[str "a"], [[1]], some [{}, {}]⟩]).store.rows = 1 ∧
    (runCalls {} [⟨[str "a"], [[1]], some [{}, {}]⟩]).store.metadata.length = 2 ∧
    ¬ (runCalls {} [⟨[str "a"], [[1]], some [{}, {}]⟩]).store.wf := by
  decide

/-- C3 is refuted: two passages whose similarity to the query is exactly
equal; with top_k 1 the search returns the later-inserted passage d1 while
the earlier-inserted d0 is absent, so ties are not broken by lower
original index. -/
theorem C3_counterexample :
    search SIMILARITY_THRESHOLD headSim
        ⟨[str "d0", str "d1"], some [[1], [1]],
         [{file_name := some (str "f0")}, {file_name := some (str "f1")}]⟩
        [] 1 (some (mkRat 1 2)) =
      [(str "d1", 1, {file_name := some (str "f1")})] ∧
    (str "d0", (1:ℚ), ({file_name := some (str "f0")} : Metadata)) ∉
      search SIMILARITY_THRESHOLD headSim
        ⟨[str "d0", str "d1"], some [[1], [1]],
         [{file_name := some (str "f0")}, {file_name := some (str "f1")}]⟩
        [] 1 (some (mkRat 1 2)) := by
  decide

/-- C6 is refuted: a document text of 5 characters, well under 500, is
emitted with the ellipsis marker appended even though it was not
truncated. -/
theorem C6_counterexample :
    (str "short").length ≤ 500 ∧
    (retrieve_context SIMILARITY_THRESHOLD headSim (fun _ => [])
        ⟨[str "short"], some [[1]], [{file_name := some (str "file.txt")}]⟩
        false (fun _ => []) (str "q") false).1 =
      str "Document Knowledge:\n- short..." := by
  decide

/-- C7 is refuted: the per-document source line has the form
Document: name (similarity: x.xxx), not the claimed Doc: name (x.xxx). -/
theorem C7_counterexample :
    (retrieve_context SIMILARITY_THRESHOLD headSim (fun _ => [])
        ⟨[str "short"], some [[1]], [{file_name := some (str "file.txt")}]⟩
        false (fun _ => []) (str "q") false).2.1 =
      str "Document: file.txt (similarity: 1.000)" ∧
    str "Document: file.txt (similarity: 1.000)" ≠ str "Doc: file.txt (1.000)" := by
  decide

/-- C8 is refuted: a 3-character input containing a newline is shorter than
the chunk size but comes back as a single chunk with the newline replaced
by a space, not equal to the original text. -/
theorem C8_counterexample :
    (str "a\nb").length < CHUNK_SIZE ∧
    chunk_text CHUNK_SIZE CHUNK_OVERLAP (str "a\nb") = [⟨0, str "a b", 3⟩] ∧
    str "a b" ≠ str "a\nb" := by
  decide

/-- C4: on a non-empty store, when the search at the configured threshold
returns nothing and the configured threshold exceeds 0.5, the retriever's
result is exactly that of one retry at relaxed threshold 0.3 with the same
query vector and top_k; otherwise the first search's results are used
unchanged. -/
theorem C4_relaxed_retry (cfg : ℚ) (sim : List ℚ → List ℚ → ℚ)
    (encode : Str → List ℚ) (st : VectorStore) (query : Str)
    (hne : st.documents.length ≠ 0) :
    ((search cfg sim st (encode query) MAX_CHUNKS (some cfg) = [] ∧ mkRat 1 2 < cfg) →
      retrieve_from_documents cfg sim encode st query =
        search cfg sim st (encode query) MAX_CHUNKS (some (mkRat 3 10))) ∧
    (¬(search cfg sim st (encode query) MAX_CHUNKS (some cfg) = [] ∧ mkRat 1 2 < cfg) →
      retrieve_from_documents cfg sim encode st query =
        search cfg sim st (encode query) MAX_CHUNKS (some cfg)) := by
  simp only [retrieve_from_documents, if_neg hne]
  exact ⟨fun h => by rw [if_pos h], fun h => by rw [if_neg h]⟩

/-- Witness for C4 at a one-document store where the first search already
returns a result, so no retry happens. -/
theorem C4_witness :
    ((⟨[str "w"], some [[1]], [{}]⟩ : VectorStore).documents.length ≠ 0) ∧
    retrieve_from_documents SIMILARITY_THRESHOLD headSim (fun _ => [])
        ⟨[str "w"], some [[1]], [{}]⟩ (str "q") =
      search SIMILARITY_THRESHOLD headSim ⟨[str "w"], some [[1]], [{}]⟩
        ((fun _ => []) (str "q")) MAX_CHUNKS (some SIMILARITY_THRESHOLD) :=
  ⟨by decide,
   (C4_relaxed_retry SIMILARITY_THRESHOLD headSim (fun _ => [])
      ⟨[str "w"], some [[1]], [{}]⟩ (str "q") (by decide)).2 (by decide)⟩

/-- C6 amended: with web search off and document results present, the
context is the Document Knowledge header followed by one line per result
holding the text truncated to 500 characters with an ellipsis always
appended, truncated or not. -/
theorem C6_truncate_always_ellipsis (cfg : ℚ) (sim : List ℚ → List ℚ → ℚ)
    (encode : Str → List ℚ) (st : VectorStore) (configured : Bool)
    (web_search : Str → List WebResult) (query : Str)
    (h : retrieve_from_documents cfg sim encode st query ≠ []) :
    (retrieve_context cfg sim encode st configured web_search query false).1 =
      joinNl (str "Document Knowledge:" ::
        (retrieve_from_documents cfg sim encode st query).map
          (fun r => str "- " ++ r.1.take 500 ++ str "...")) := by
  cases hrs : retrieve_from_documents cfg sim encode st query with
  | nil => exact absurd hrs h
  | cons a l =>
      simp [retrieve_context, webTriggered, docContextLine, hrs]

/-- Witness for C6 with one 5-character document. -/
theorem C6_witness :
    retrieve_from_documents SIMILARITY_THRESHOLD headSim (fun _ => [])
        ⟨[str "short"], some [[1]], [{file_name := some (str "file.txt")}]⟩
        (str "q") ≠ [] ∧
    (retrieve_context SIMILARITY_THRESHOLD headSim (fun _ => [])
        ⟨[str "short"], some [[1]], [{file_name := some (str "file.txt")}]⟩
        false (fun _ => []) (str "q") false).1 =
      joinNl (str "Document Knowledge:" ::
        (retrieve_from_documents SIMILARITY_THRESHOLD headSim (fun _ => [])
            ⟨[str "short"], some [[1]], [{file_name := some (str "file.txt")}]⟩
            (str "q")).map
          (fun r => str "- " ++ r.1.take 500 ++ str "...")) :=
  ⟨by decide,
   C6_truncate_always_ellipsis SIMILARITY_THRESHOLD headSim (fun _ => [])
     ⟨[str "short"], some [[1]], [{file_name := some (str "file.txt")}]⟩
     false (fun _ => []) (str "q") (by decide)⟩

/-- C7 amended: when neither document nor web results were retrieved the
output is the empty context with the literal No sources found; otherwise
the source string is one line per document result of the form
Document: file_name (similarity: x.xxx) followed by one line per web
result of the form Web: title (link). -/
theorem C7_source_format (cfg : ℚ) (sim : List ℚ → List ℚ → ℚ)
    (encode : Str → List ℚ) (st : VectorStore) (configured : Bool)
    (web_search : Str → List WebResult) (query : Str) (use_web_search : Bool) :
    ((retrieve_from_documents cfg sim encode st query = [] ∧
      (if webTriggered (retrieve_from_documents cfg sim encode st query) use_web_search
       then retrieve_from_web configured web_search query else []) = []) →
      retrieve_context cfg sim encode st configured web_search query use_web_search =
        ([], str "No sources found",
         webTriggered (retrieve_from_documents cfg sim encode st query) use_web_search)) ∧
    ((retrieve_from_documents cfg sim encode st query ≠ [] ∨
      (if webTriggered (retrieve_from_documents cfg sim encode st query) use_web_search
       then retrieve_from_web configured web_search query else []) ≠ []) →
      (retrieve_context cfg sim encode st configured web_search query use_web_search).2.1 =
        joinNl ((retrieve_from_documents cfg sim encode st query).map
            (fun r => docSourceLine r.2.1 r.2.2) ++
          (if webTriggered (retrieve_from_documents cfg sim encode st query) use_web_search
           then retrieve_from_web configured web_search query else []).map
            webSourceLine)) := by
  simp only [retrieve_context]
  generalize retrieve_from_documents cfg sim encode st query = rs
  generalize (if webTriggered rs use_web_search
      then retrieve_from_web configured web_search query else []) = ws
  cases rs with
  | nil =>
      cases ws with
      | nil => simp
      | cons w wl => simp
  | cons a l =>
      cases ws with
      | nil => simp
      | cons w wl => simp

/-- Witness for C7: empty store and web search off yield the empty context
and the No sources found literal. -/
theorem C7_witness :
    (retrieve_from_documents SIMILARITY_THRESHOLD headSim (fun _ => []) {} (str "q") = [] ∧
     (if webTriggered (retrieve_from_documents SIMILARITY_THRESHOLD headSim (fun _ => [])
           {} (str "q")) false
      then retrieve_from_web false (fun _ => []) (str "q") else []) = []) ∧
    retrieve_context SIMILARITY_THRESHOLD headSim (fun _ => []) {} false (fun _ => [])
        (str "q") false =
      ([], str "No sources found",
       webTriggered (retrieve_from_documents SIMILARITY_THRESHOLD headSim (fun _ => [])
         {} (str "q")) false) :=
  ⟨⟨by decide, by decide⟩,
   (C7_source_format SIMILARITY_THRESHOLD headSim (fun _ => []) {} false (fun _ => [])
      (str "q") false).1 ⟨by decide, by decide⟩⟩

/-- Well-formedness of the metadata argument of one call: when it is given
it has one entry per document. -/
def metadataLengthOK (c : AddCall) : Bool :=
  match c.metadata with
  | none => true
  | some l => decide (l.length = c.documents.length)

/-- Strengthened invariant for the add sequence: lockstep lengths plus all
embedding rows of width d. -/
def wfWidth (d : Nat) (st : VectorStore) : Prop :=
  st.wf ∧ ∀ e, st.embeddings = some e → e.all (fun r => decide (r.length = d)) = true

/-- A matrix whose rows all have width d is rectangular. -/
lemma allSameWidth_of_all (d : Nat) (l : List (List ℚ))
    (h : l.all (fun r => decide (r.length = d)) = true) : allSameWidth l = true := by
  cases l with
  | nil => rfl
  | cons r rest =>
      simp only [List.all_cons, Bool.and_eq_true, decide_eq_true_eq] at h
      obtain ⟨hr, hrest⟩ := h
      simp only [allSameWidth, List.all_eq_true, decide_eq_true_eq]
      intro s hs
      have hsd := (List.all_eq_true.mp hrest) s hs
      rw [decide_eq_true_eq] at hsd
      rw [hsd, hr]

/-- The length of the default metadata equals the document count. -/
lemma defaultMetadata_length (n : Nat) : (defaultMetadata n).length = n := by
  simp [defaultMetadata]

/-- One add_documents call keeps the strengthened invariant, provided its
metadata (when given) matches the document count and its embedding rows
have width d, whether or not the call raises. -/
lemma add_documents_preserves (d : Nat) (s : SysState) (documents : List Str)
    (embeddings : List (List ℚ)) (metadata : Option (List Metadata))
    (hwf : wfWidth d s.store)
    (hmd : metadataLengthOK ⟨documents, embeddings, metadata⟩ = true)
    (hemb : embeddings.all (fun r => decide (r.length = d)) = true) :
    wfWidth d (add_documents s documents embeddings metadata).1.store := by
  by_cases hlen : documents.length ≠ embeddings.length
  · simp only [add_documents, if_pos hlen]
    exact hwf
  · push_neg at hlen
    have hmdlen : (metadata.getD (defaultMetadata documents.length)).length =
        documents.length := by
      cases metadata with
      | none => simp [defaultMetadata_length]
      | some l =>
          simp only [metadataLengthOK, decide_eq_true_eq] at hmd
          simpa using hmd
    simp only [add_documents, if_neg (not_not_intro hlen)]
    obtain ⟨⟨hdoc, hmeta⟩, hwidth⟩ := hwf
    cases hemb0 : s.store.embeddings with
    | none =>
        have hrows0 : s.store.rows = 0 := by simp [VectorStore.rows, hemb0]
        refine ⟨⟨?_, ?_⟩, ?_⟩
        · simp only [VectorStore.rows, Option.getD_some, List.length_append]
          rw [hdoc, hrows0, hlen]
          simp
        · simp only [VectorStore.rows, Option.getD_some, List.length_append]
          rw [hmeta, hrows0, hmdlen, hlen]
          simp
        · intro e he
          injection he with he
          rw [← he]
          exact hemb
    | some old =>
        have hold : old.all (fun r => decide (r.length = d)) = true := hwidth old hemb0
        have hall : (old ++ embeddings).all (fun r => decide (r.length = d)) = true := by
          rw [List.all_append, hold, hemb]
          rfl
        have hsw : allSameWidth (old ++ embeddings) = true := allSameWidth_of_all d _ hall
        have hrowsOld : s.store.rows = old.length := by simp [VectorStore.rows, hemb0]
        simp only [if_pos hsw]
        refine ⟨⟨?_, ?_⟩, ?_⟩
        · simp only [VectorStore.rows, Option.getD_some, List.length_append]
          rw [hdoc, hrowsOld, hlen]
        · simp only [VectorStore.rows, Option.getD_some, List.length_append]
          rw [hmeta, hrowsOld, hmdlen, hlen]
        · intro e he
          injection he with he
          rw [← he]
          exact hall

/-- C1 amended: the lockstep invariant holds after any sequence of
add_documents calls in which every call provides metadata of matching
length (or none) and embedding rows of one common width d, so that no call
fails during embedding concatenation; calls rejected by the initial length
check leave the store unchanged and are harmless. -/
theorem C1_lockstep (d : Nat) (calls : List AddCall) (s : SysState)
    (hwf : wfWidth d s.store)
    (hcalls : ∀ c ∈ calls, metadataLengthOK c = true ∧
        c.embeddings.all (fun r => decide (r.length = d)) = true) :
    (runCalls s calls).store.wf := by
  have main : ∀ (cs : List AddCall) (s0 : SysState), wfWidth d s0.store →
      (∀ c ∈ cs, metadataLengthOK c = true ∧
          c.embeddings.all (fun r => decide (r.length = d)) = true) →
      (runCalls s0 cs).store.wf := by
    intro cs
    induction cs with
    | nil => intro s0 h0 _; exact h0.1
    | cons c rest ih =>
        intro s0 h0 hc
        simp only [runCalls]
        refine ih _ ?_ (fun c2 h2 => hc c2 (List.mem_cons_of_mem _ h2))
        have hhead := hc c (List.mem_cons_self c rest)
        exact add_documents_preserves d s0 c.documents c.embeddings c.metadata h0
          hhead.1 hhead.2
  exact main calls s hwf hcalls

/-- Witness for C1 on two well-formed calls of width 1. -/
theorem C1_witness :
    wfWidth 1 ({} : SysState).store ∧
    (runCalls {} [⟨[str "a"], [[1]], none⟩, ⟨[str "b"], [[2]], some [{}]⟩]).store.wf := by
  have h1 : wfWidth 1 ({} : SysState).store := ⟨⟨rfl, rfl⟩, fun e h => nomatch h⟩
  have h2 : ∀ c ∈ [(⟨[str "a"], [[1]], none⟩ : AddCall), ⟨[str "b"], [[2]], some [{}]⟩],
      metadataLengthOK c = true ∧
      c.embeddings.all (fun r => decide (r.length = 1)) = true := by
    intro c hc
    simp only [List.mem_cons, List.mem_singleton] at hc
    rcases hc with rfl | rfl | h
    · exact ⟨by decide, by decide⟩
    · exact ⟨by decide, by decide⟩
    · exact absurd h (List.not_mem_nil c)
  exact ⟨h1, C1_lockstep 1 _ {} h1 h2⟩

/-- C3 amended: when two passages score exactly equal and only one can be
included (top_k 1), the LATER-inserted passage wins: the ascending argsort
is reversed, which puts the higher original index first among ties. -/
theorem C3_tie_later_wins (sim : List ℚ → List ℚ → ℚ) (d0 d1 : Str)
    (e0 e1 q : List ℚ) (m0 m1 : Metadata) (t : ℚ)
    (heq : sim q e0 = sim q e1)
    (hth : effThreshold SIMILARITY_THRESHOLD (some t) ≤ sim q e1) :
    search SIMILARITY_THRESHOLD sim ⟨[d0, d1], some [e0, e1], [m0, m1]⟩ q 1 (some t) =
      [(d1, sim q e1, m1)] := by
  simp only [search, List.map_cons, List.map_nil, heq, argsortAsc, List.length_cons,
    List.length_nil, List.range_succ, List.range_zero, List.foldl_cons, List.foldl_nil,
    List.nil_append, insertAsc, List.getD_cons_zero, List.getD_cons_succ, le_refl,
    if_pos, List.reverse_cons, List.reverse_nil, List.append_nil, List.cons_append,
    List.take_succ_cons, List.take_zero, List.filter_cons, List.filter_nil, hth,
    decide_eq_true_eq]
  simp [hth]

/-- Witness for C3 at two concrete passages of equal score 1. -/
theorem C3_witness :
    headSim [] [(1:ℚ)] = headSim [] [1] ∧
    effThreshold SIMILARITY_THRESHOLD (some (mkRat 1 2)) ≤ headSim [] [1] ∧
    search SIMILARITY_THRESHOLD headSim ⟨[str "a0", str "a1"], some [[1], [1]], [{}, {}]⟩
        [] 1 (some (mkRat 1 2)) = [(str "a1", headSim [] [1], {})] :=
  ⟨rfl, by decide,
   C3_tie_later_wins headSim (str "a0") (str "a1") [1] [1] [] {} {} (mkRat 1 2)
     rfl (by decide)⟩

/-- Strip then drop blanks: the sentence list as actually accumulated by
the chunk_text loop. -/
def normList (ss : List Str) : List Str :=
  (ss.map pyStrip).filter (fun s => decide (s ≠ []))

/-- The normalized sentences of a text as chunk_text sees them. -/
def normSentences (text : Str) : List Str :=
  normList (splitDotSpace (replaceChar '\n' ' ' text))

lemma joinDS_cons_cons (a b : Str) (l : List Str) :
    joinDS (a :: b :: l) = a ++ '.' :: ' ' :: joinDS (b :: l) := rfl

/-- The first element is no longer than the delimiter join. -/
lemma length_le_joinDS (a : Str) (l : List Str) :
    a.length ≤ (joinDS (a :: l)).length := by
  cases l with
  | nil => simp [joinDS]
  | cons b l =>
      rw [joinDS_cons_cons]
      simp only [List.length_append, List.length_cons]
      omega

/-- Merging the head pair of a delimiter join. -/
lemma joinDS_merge (a b : Str) (l : List Str) :
    joinDS ((a ++ '.' :: ' ' :: b) :: l) = joinDS (a :: b :: l) := by
  cases l with
  | nil => rfl
  | cons c l =>
      rw [joinDS_cons_cons, joinDS_cons_cons, joinDS_cons_cons]
      simp [List.append_assoc]

lemma normList_cons_blank (s0 : Str) (ss : List Str) (h : pyStrip s0 = []) :
    normList (s0 :: ss) = normList ss := by
  simp [normList, h]

lemma normList_cons (s0 : Str) (ss : List Str) (h : pyStrip s0 ≠ []) :
    normList (s0 :: ss) = pyStrip s0 :: normList ss := by
  simp [normList, h]

/-- The chunk_text loop started on a non-empty buffer never overflows while
the joined remainder fits in the chunk size: it accumulates all non-blank
sentences into the buffer and closes no chunk. -/
lemma chunk_loop_single (cs co : Nat) :
    ∀ (ss : List Str) (cur : Str), cur ≠ [] →
      (joinDS (cur :: normList ss)).length ≤ cs →
      ss.foldl (chunkStep cs co) ⟨[], cur, cur.length, 0⟩ =
        ⟨[], joinDS (cur :: normList ss), (joinDS (cur :: normList ss)).length, 0⟩ := by
  intro ss
  induction ss with
  | nil =>
      intro cur hne hlen
      simp [normList, joinDS]
  | cons s0 rest ih =>
      intro cur hne hlen
      simp only [List.foldl_cons]
      by_cases hs : pyStrip s0 = []
      · rw [normList_cons_blank s0 rest hs] at hlen ⊢
        have step : chunkStep cs co ⟨[], cur, cur.length, 0⟩ s0 =
            ⟨[], cur, cur.length, 0⟩ := by
          simp [chunkStep, hs]
        rw [step]
        exact ih cur hne hlen
      · rw [normList_cons s0 rest hs] at hlen ⊢
        have hbound : cur.length + (pyStrip s0).length ≤ cs := by
          have h1 : (joinDS (cur :: pyStrip s0 :: normList rest)).length =
              cur.length + 2 + (joinDS (pyStrip s0 :: normList rest)).length := by
            rw [joinDS_cons_cons]
            simp only [List.length_append, List.length_cons]
            omega
          have h2 := length_le_joinDS (pyStrip s0) (normList rest)
          omega
        have hover : ¬(cs < cur.length + (pyStrip s0).length ∧ cur ≠ []) := by
          rintro ⟨hlt, -⟩
          omega
        have step : chunkStep cs co ⟨[], cur, cur.length, 0⟩ s0 =
            ⟨[], cur ++ '.' :: ' ' :: pyStrip s0,
             (cur ++ '.' :: ' ' :: pyStrip s0).length, 0⟩ := by
          simp [chunkStep, hs, hover, hne]
          exact hbound
        rw [step]
        have hcur2 : cur ++ '.' :: ' ' :: pyStrip s0 ≠ [] := by simp
        have hjoin := joinDS_merge cur (pyStrip s0) (normList rest)
        rw [ih (cur ++ '.' :: ' ' :: pyStrip s0) hcur2 (by rw [hjoin]; exact hlen), hjoin]

/-- The chunk_text loop from the empty start state: leading blank sentences
are skipped, then the first non-blank sentence seeds the buffer and the
rest accumulates, producing no closed chunk while everything fits. -/
lemma chunk_loop_start (cs co : Nat) :
    ∀ ss : List Str, normList ss ≠ [] →
      (joinDS (normList ss)).length ≤ cs →
      ss.foldl (chunkStep cs co) ⟨[], [], 0, 0⟩ =
        ⟨[], joinDS (normList ss), (joinDS (normList ss)).length, 0⟩ := by
  intro ss
  induction ss with
  | nil =>
      intro h _
      exact absurd (by simp [normList] : normList [] = []) h
  | cons s0 rest ih =>
      intro hne hlen
      simp only [List.foldl_cons]
      by_cases hs : pyStrip s0 = []
      · rw [normList_cons_blank s0 rest hs] at hne hlen ⊢
        have step : chunkStep cs co ⟨[], [], 0, 0⟩ s0 = ⟨[], [], 0, 0⟩ := by
          simp [chunkStep, hs]
        rw [step]
        exact ih hne hlen
      · rw [normList_cons s0 rest hs] at hlen ⊢
        have step : chunkStep cs co ⟨[], [], 0, 0⟩ s0 =
            ⟨[], pyStrip s0, (pyStrip s0).length, 0⟩ := by
          simp [chunkStep, hs]
        rw [step]
        exact chunk_loop_single cs co rest (pyStrip s0) hs hlen

/-- C8 amended: a nonblank text shorter than the chunk size comes back as
exactly one chunk, and that chunk equals the text provided the text is
already in the loop's normal form: no leading or trailing whitespace and
equal to the delimiter join of its stripped non-blank sentence segments
(in particular no newline and no irregular spacing around delimiters).
Texts outside this form are returned modified, and blank texts yield no
chunk at all. -/
theorem C8_single_chunk (text : Str)
    (hlen : text.length < CHUNK_SIZE)
    (hnorm : joinDS (normSentences text) = text)
    (htrim : pyStrip text = text)
    (hne : text ≠ []) :
    chunk_text CHUNK_SIZE CHUNK_OVERLAP text = [⟨0, text, text.length⟩] := by
  have hnn : normSentences text ≠ [] := by
    intro h
    rw [h] at hnorm
    exact hne hnorm.symm
  have hlen2 : (joinDS (normSentences text)).length ≤ CHUNK_SIZE := by
    rw [hnorm]
    exact le_of_lt hlen
  simp only [chunk_text]
  rw [chunk_loop_start CHUNK_SIZE CHUNK_OVERLAP
    (splitDotSpace (replaceChar '\n' ' ' text)) hnn hlen2]
  rw [show joinDS (normList (splitDotSpace (replaceChar '\n' ' ' text))) = text from hnorm]
  rw [htrim]
  simp [hne]

/-- Witness for C8 on a two-sentence text in normal form. -/
theorem C8_witness :
    (str "Hello. World").length < CHUNK_SIZE ∧
    chunk_text CHUNK_SIZE CHUNK_OVERLAP (str "Hello. World") =
      [⟨0, str "Hello. World", (str "Hello. World").length⟩] :=
  ⟨by decide,
   C8_single_chunk (str "Hello. World") (by decide) (by decide) (by decide) (by decide)⟩
